import Mathlib

/-!
Verification of the stack-map-driven GC root-enumeration subsystem of the
lust runtime (`lustc/src/gc.rs`), as a shallow embedding in Lean.

Machine integers are modelled over `Int`/`Nat`; the casts the source
performs (`as usize` on a signed value, `usize → isize`, wrapping to the
`i32` and `i64` ranges) are modelled explicitly by `usizeCast`,
`isizeCast`, `i32wrap` and `i64wrap` below.  Memory is a total map from byte addresses to 64-bit
words; the walker only ever reads it.
-/

namespace LustGc

/-- Fatal runtime failures: the places where the source code aborts
(out-of-bounds `Vec` indexing, a failed debug assertion, `Option::unwrap`
on `None`, integer division by zero). -/
inductive Fatal where
  | lookupOutOfBounds
  | sizeAssertFailed
  | offsetMissing
  | divByZero
  deriving DecidableEq

instance {ε α : Type _} [DecidableEq ε] [DecidableEq α] : DecidableEq (Except ε α) := fun x y =>
  match x, y with
  | .error a, .error b =>
    if h : a = b then .isTrue (by rw [h]) else .isFalse (fun hh => h (Except.error.inj hh))
  | .error _, .ok _ => .isFalse (fun hh => Except.noConfusion hh)
  | .ok _, .error _ => .isFalse (fun hh => Except.noConfusion hh)
  | .ok a, .ok b =>
    if h : a = b then .isTrue (by rw [h]) else .isFalse (fun hh => h (Except.ok.inj hh))

/-- A stack map entry: the pair (escaped-root word offsets, local-root word
offsets) stored per compiled function id (`gc.rs` line 23). -/
abbrev StackMapEntry := List Nat × List Nat

/-- The stack map registry `SM_REGISTRY`: a growable vector of stack map
entries indexed by compiled function id (`gc.rs` lines 21–24). -/
abbrev Registry := List StackMapEntry

/-- Rust `Vec::resize(n, fill)`: extend with copies of `fill` when `n` is
larger than the current length, truncate to `n` when it is smaller. -/
def vecResize (r : Registry) (n : Nat) (fill : StackMapEntry) : Registry :=
  if r.length ≤ n then r ++ List.replicate (n - r.length) fill else r.take n

/-- The registry write performed by `register_stackmaps` (`gc.rs` lines
172–176): `registry.resize(id + 1, (vec![], vec![])); registry[id] = maps`.
The offset lists have already been computed by `root_offsets_from_values`. -/
def register_stackmaps (r : Registry) (id : Nat) (esc loc : List Nat) : Registry :=
  (vecResize r (id + 1) ([], [])).set id (esc, loc)

/-- Registry lookup as performed by `do_gc` (`gc.rs` line 61):
`&registry[id as usize]`, where an out-of-bounds index (`none` here) aborts
the process in every build. -/
def smLookup (r : Registry) (id : Nat) : Option StackMapEntry :=
  r[id]?

/-- Reinterpretation of a signed machine integer as a `usize`
(two's complement, 64-bit), as in `id as usize` on an `i64` (`gc.rs` line
61) and `bytes_from_bottom as usize` on an `i32` (`gc.rs` line 154). -/
def usizeCast (x : Int) : Nat :=
  (x % (2 : Int) ^ 64).toNat

/-- Reinterpretation of a `usize` as an `isize` (two's complement, 64-bit),
as in `(*offset * 8) as isize` (`gc.rs` line 63). -/
def isizeCast (x : Nat) : Int :=
  if x % 2 ^ 64 < 2 ^ 63 then ((x % 2 ^ 64 : Nat) : Int)
  else ((x % 2 ^ 64 : Nat) : Int) - 2 ^ 64

/-- Wrapping of an unbounded integer to the `i32` range (two's complement),
as in `info.frame_size as i32 + ssd.offset.unwrap()` (`gc.rs` line 153). -/
def i32wrap (x : Int) : Int :=
  (x + 2 ^ 31) % 2 ^ 32 - 2 ^ 31

/-- Wrapping of an unbounded integer to the `i64` range (two's complement),
the release-build semantics of `i64` addition such as
`ALLOC_AMOUNT += amount` (`gc.rs` line 31). -/
def i64wrap (x : Int) : Int :=
  (x + 2 ^ 63) % 2 ^ 64 - 2 ^ 63

/-- Memory: a total map from byte addresses to the 64-bit word stored
there. -/
abbrev Mem := Int → Int

/-- The sentinel magic constant `0xBA5EBA11` (`gc.rs` line 58). -/
def SENTINEL_MAGIC : Int := 0xBA5EBA11

/-- The sentinel scan window: `for offset in 0..10` (`gc.rs` line 53). -/
def SCAN_WINDOW : Nat := 10

/-- The sentinel search (`gc.rs` lines 53–58): the first word offset
`k < 10` such that the word at byte address `sp - 8·k` equals the magic
constant, or `none` when no window word matches (a benign miss). -/
def findSentinel (mem : Mem) (sp : Int) : Option Nat :=
  (List.range SCAN_WINDOW).find? (fun k => mem (sp - 8 * k) == SENTINEL_MAGIC)

/-- The compiled-function id read after a sentinel hit (`gc.rs` line 59):
the word at byte address `sp - 8·k + 8`, where `k` is the word offset at
which the magic constant was found. -/
def sentinelId (mem : Mem) (sp : Int) : Option Int :=
  (findSentinel mem sp).map (fun k => mem (sp - 8 * k + 8))

/-- One frame of the stack walk (`gc.rs` lines 53–69): search the scan
window for the sentinel; on a miss return no roots (benign); on a hit read
the function id, index the registry with it (`usize` cast; out of bounds is
fatal in every build), and return the words fed to the tracer — one word
per local-root offset, read at byte address `sp + isize(offset · 8)`.  The
escaped offset list of the entry is bound by the source but never used. -/
def walkFrame (registry : Registry) (mem : Mem) (sp : Int) : Except Fatal (List Int) :=
  match findSentinel mem sp with
  | none => .ok []
  | some k =>
    let id := mem (sp - 8 * k + 8)
    match smLookup registry (usizeCast id) with
    | none => .error .lookupOutOfBounds
    | some (_esc, loc) => .ok (loc.map (fun off => mem (sp + isizeCast (off * 8))))

/-- The walk over all frames of the backtrace (`gc.rs` lines 37–71): each
frame is processed in turn; a fatal failure in any frame aborts. -/
def walkFrames (registry : Registry) (mem : Mem) (frames : List Int) :
    Except Fatal (List (List Int)) :=
  frames.mapM (walkFrame registry mem)

/-- The GC trigger threshold `GC_THRESHOLD` (`gc.rs` line 19). -/
def GC_THRESHOLD : Int := 0

/-- The allocation hook `do_gc` (`gc.rs` lines 29–73): add `amount` to the
allocation counter `ALLOC_AMOUNT` with `i64` wrapping arithmetic (the
release-build semantics of `+=`; a build with overflow checks would abort
at the wrap instead), then walk the stack if the source's trigger condition
`true || ALLOC_AMOUNT > GC_THRESHOLD` holds.  Returns the new counter,
whether the walk ran, and the walk's result.  Nothing else in the hook
touches the counter. -/
def do_gc (registry : Registry) (mem : Mem) (frames : List Int)
    (counter amount : Int) : Int × Bool × Except Fatal (List (List Int)) :=
  let counter := i64wrap (counter + amount)
  let trigger := true || decide (counter > GC_THRESHOLD)
  if trigger then (counter, trigger, walkFrames registry mem frames)
  else (counter, trigger, .ok [])

/-- Cranelift stack slot kinds (`StackSlotKind`); only
`outgoingArg` is treated specially by the resolver. -/
inductive StackSlotKind where
  | spillSlot
  | explicitSlot
  | incomingArg
  | outgoingArg
  | emergencySlot
  deriving DecidableEq

/-- Cranelift per-slot data as read by the resolver: kind, byte size, and
byte offset within the frame (`ssd.kind`, `ssd.size`, `ssd.offset`). -/
structure StackSlotData where
  kind : StackSlotKind
  size : Nat
  offset : Option Int
  deriving DecidableEq

/-- Cranelift value locations (`ValueLoc`): a stack slot, a register, or
unassigned. -/
inductive ValueLoc where
  | unassigned
  | reg (unit : Nat)
  | stack (slot : Nat)
  deriving DecidableEq

/-- The live-slot set built by `root_offsets_from_values` (`gc.rs` lines
126–136): the stack slots of the handles that are located in a stack slot.
The source collects them into a `HashSet`; only membership is ever used. -/
def liveRefsInStackSlot (args : List Nat) (locations : List (Nat × ValueLoc)) : List Nat :=
  args.filterMap (fun v =>
    match locations.lookup v with
    | some (.stack ss) => some ss
    | _ => none)

/-- The slot loop of `root_offsets_from_values` (`gc.rs` lines 145–156):
for each slot of the function, in table order — skip it when it holds no
live handle or is an outgoing-call-argument slot; otherwise assert (only
when debug assertions are compiled in) that its size is one word, take its
byte offset (`unwrap`, fatal when absent), and push
`usize(i32(frame_size + offset)) / word_size`. -/
def rootOffsetsLoop (dbg : Bool) (live : List Nat) (frame_size : Nat) (word_size : Nat) :
    List (Nat × StackSlotData) → Except Fatal (List Nat)
  | [] => .ok []
  | sl :: rest =>
    if sl.1 ∉ live ∨ sl.2.kind = .outgoingArg then
      rootOffsetsLoop dbg live frame_size word_size rest
    else if dbg ∧ sl.2.size ≠ word_size then .error .sizeAssertFailed
    else
      match sl.2.offset with
      | none => .error .offsetMissing
      | some off =>
        if word_size = 0 then .error .divByZero
        else
          (rootOffsetsLoop dbg live frame_size word_size rest).map
            (fun v => usizeCast (i32wrap ((frame_size : Int) + off)) / word_size :: v)

/-- `root_offsets_from_values` (`gc.rs` lines 120–159): build the live-slot
set from the handles and the value-location table, then run the slot loop.
`dbg` says whether the build compiles `debug_assert!` in. -/
def root_offsets_from_values (dbg : Bool) (args : List Nat)
    (locations : List (Nat × ValueLoc)) (slots : List (Nat × StackSlotData))
    (frame_size : Nat) (word_size : Nat) : Except Fatal (List Nat) :=
  rootOffsetsLoop dbg (liveRefsInStackSlot args locations) frame_size word_size slots

/-- Modelled from the spec (for contrast with the source): the "surviving
handles" of C7 — the handles that resolve to an ordinary
(non-outgoing-call-argument) stack slot. -/
def survivingHandles (args : List Nat) (locations : List (Nat × ValueLoc))
    (slots : List (Nat × StackSlotData)) : List Nat :=
  args.filter (fun v =>
    match locations.lookup v with
    | some (.stack ss) =>
      match slots.lookup ss with
      | some ssd => decide (ssd.kind ≠ .outgoingArg)
      | none => false
    | _ => false)

theorem vecResize_length (r : Registry) (n : Nat) (fill : StackMapEntry) :
    (vecResize r n fill).length = n := by
  unfold vecResize
  split
  · simp; omega
  · simp; omega

theorem register_stackmaps_length (r : Registry) (id : Nat) (esc loc : List Nat) :
    (register_stackmaps r id esc loc).length = id + 1 := by
  unfold register_stackmaps
  rw [List.length_set, vecResize_length]

theorem vecResize_getElem?_lt (r : Registry) (n j : Nat) (fill : StackMapEntry)
    (hj : j < r.length) (hjn : j < n) : (vecResize r n fill)[j]? = r[j]? := by
  unfold vecResize
  split
  · exact List.getElem?_append_left hj
  · exact List.getElem?_take_of_lt hjn

/-- C1.  Registry round-trip with last-write-wins: after
`register_stackmaps id esc loc`, `smLookup id` returns exactly `(esc, loc)`;
registering the same id twice leaves `smLookup` returning the second
registration. -/
theorem c1_registry_round_trip (r : Registry) (id : Nat) (esc loc esc' loc' : List Nat) :
    smLookup (register_stackmaps r id esc loc) id = some (esc, loc) ∧
    smLookup (register_stackmaps (register_stackmaps r id esc loc) id esc' loc') id
      = some (esc', loc') := by
  constructor <;>
  · unfold smLookup register_stackmaps
    rw [List.getElem?_set_self]
    rw [vecResize_length]
    omega

/-- C5.  Registering `id = N` when the registry length is `M ≤ N` grows the
table to length `N + 1`; every gap index in `[M, N)` holds the empty pair;
and any in-bounds index yields a defined lookup. -/
theorem c5_gap_fill (r : Registry) (id : Nat) (esc loc : List Nat) (j : Nat)
    (hgrow : r.length ≤ id) :
    (register_stackmaps r id esc loc).length = id + 1 ∧
    (r.length ≤ j → j < id → smLookup (register_stackmaps r id esc loc) j = some ([], [])) ∧
    (j < id + 1 → (smLookup (register_stackmaps r id esc loc) j).isSome = true) := by
  refine ⟨register_stackmaps_length r id esc loc, ?_, ?_⟩
  · intro hMj hji
    unfold smLookup register_stackmaps
    rw [List.getElem?_set_ne (by omega)]
    unfold vecResize
    rw [if_pos (by omega)]
    rw [List.getElem?_append_right hMj]
    exact List.getElem?_replicate_of_lt (by omega)
  · intro hj
    unfold smLookup
    rw [List.getElem?_eq_getElem (by rw [register_stackmaps_length]; omega)]
    rfl

/-- Witness for C5 at a concrete registry of length 1, id 3, gap index 1. -/
theorem c5_gap_fill_witness :
    (register_stackmaps [([1], [2])] 3 [5] [6]).length = 3 + 1 ∧
    smLookup (register_stackmaps [([1], [2])] 3 [5] [6]) 1 = some ([], []) ∧
    (smLookup (register_stackmaps [([1], [2])] 3 [5] [6]) 1).isSome = true := by
  have h := c5_gap_fill [([1], [2])] 3 [5] [6] 1 (by decide)
  exact ⟨h.1, h.2.1 (by decide) (by decide), h.2.2 (by decide)⟩

/-- C6 counterexample.  Registering id 0 after id 1 truncates the registry:
the length drops from 2 to 1 and the entry previously written at index 1 is
removed, so registration is not monotone and entries are not preserved. -/
theorem c6_counterexample :
    (register_stackmaps [] 1 [3] [4]).length = 2 ∧
    (register_stackmaps (register_stackmaps [] 1 [3] [4]) 0 [] []).length = 1 ∧
    smLookup (register_stackmaps (register_stackmaps [] 1 [3] [4]) 0 [] []) 1 = none := by
  refine ⟨rfl, rfl, rfl⟩

/-- C6 amended.  `register_stackmaps id` sets the registry length to exactly
`id + 1` (so a call with `id + 1` below the current length truncates,
removing the entries above `id`), and every previously written entry at an
index strictly below `id` keeps its value. -/
theorem c6_amended (r : Registry) (id : Nat) (esc loc : List Nat) (j : Nat)
    (hj : j < id) (hjr : j < r.length) :
    (register_stackmaps r id esc loc).length = id + 1 ∧
    smLookup (register_stackmaps r id esc loc) j = smLookup r j := by
  refine ⟨register_stackmaps_length r id esc loc, ?_⟩
  unfold smLookup register_stackmaps
  rw [List.getElem?_set_ne (by omega)]
  exact vecResize_getElem?_lt r (id + 1) j ([], []) hjr (by omega)

/-- Witness for C6 amended: registering id 2 over a registry of length 2
preserves the entry at index 0. -/
theorem c6_amended_witness :
    (register_stackmaps [([1], [2]), ([3], [4])] 2 [9] []).length = 2 + 1 ∧
    smLookup (register_stackmaps [([1], [2]), ([3], [4])] 2 [9] []) 0
      = smLookup [([1], [2]), ([3], [4])] 0 :=
  c6_amended [([1], [2]), ([3], [4])] 2 [9] [] 0 (by decide) (by decide)

theorem isizeCast_small (x : Nat) (hx : x < 2 ^ 63) : isizeCast x = (x : Int) := by
  unfold isizeCast
  rw [Nat.mod_eq_of_lt (by omega)]
  rw [if_pos (by omega)]

theorem walkFrame_found (registry : Registry) (mem : Mem) (sp : Int) (k : Nat)
    (esc loc : List Nat) (h1 : findSentinel mem sp = some k)
    (h2 : smLookup registry (usizeCast (mem (sp - 8 * k + 8))) = some (esc, loc)) :
    walkFrame registry mem sp = .ok (loc.map (fun off => mem (sp + isizeCast (off * 8)))) := by
  simp only [walkFrame, h1, h2]

theorem walkFrame_lookup_fatal (registry : Registry) (mem : Mem) (sp : Int) (k : Nat)
    (h1 : findSentinel mem sp = some k)
    (h2 : registry.length ≤ usizeCast (mem (sp - 8 * k + 8))) :
    walkFrame registry mem sp = .error .lookupOutOfBounds := by
  simp only [walkFrame, h1]
  rw [show smLookup registry (usizeCast (mem (sp - 8 * k + 8))) = none from
    List.getElem?_eq_none h2]

/-- C2 counterexample.  A frame whose stack map entry has one escaped and
one local root yields exactly one enumerated root, not two: the source
binds the escaped offset list but never iterates it (`gc.rs` lines 61–66),
so only the local root is fed to the tracer. -/
theorem c2_counterexample :
    (walkFrame [([2], [3])]
        (fun a => if a = 0 then (0xBA5EBA11 : Int) else if a = 24 then 99 else 0) 0).map
      List.length ≠ Except.ok 2 := by
  decide

/-- C2 amended.  For a frame whose sentinel is found and whose id is in
bounds, the walker enumerates one root per local-root offset, reading the
word at the computed address directly (no extra indirection anywhere); the
escaped-root offsets contribute no enumerated roots, so such a frame yields
exactly `loc.length` roots regardless of the escaped list. -/
theorem c2_local_roots_only (registry : Registry) (mem : Mem) (sp : Int) (k : Nat)
    (esc loc : List Nat) (h1 : findSentinel mem sp = some k)
    (h2 : smLookup registry (usizeCast (mem (sp - 8 * k + 8))) = some (esc, loc)) :
    walkFrame registry mem sp = .ok (loc.map (fun off => mem (sp + isizeCast (off * 8)))) ∧
    (walkFrame registry mem sp).map List.length = .ok loc.length := by
  have hw := walkFrame_found registry mem sp k esc loc h1 h2
  refine ⟨hw, ?_⟩
  rw [hw]
  simp [Except.map]

/-- Witness for C2 amended: a frame with one escaped offset (2) and one
local offset (3) yields the single root read at byte `sp + 24`. -/
theorem c2_local_roots_only_witness :
    walkFrame [([2], [3])]
        (fun a => if a = 0 then (0xBA5EBA11 : Int) else if a = 24 then 99 else 0) 0
      = .ok [99] ∧
    (walkFrame [([2], [3])]
        (fun a => if a = 0 then (0xBA5EBA11 : Int) else if a = 24 then 99 else 0) 0).map
      List.length = .ok 1 := by
  have h := c2_local_roots_only [([2], [3])]
    (fun a => if a = 0 then (0xBA5EBA11 : Int) else if a = 24 then 99 else 0) 0 0 [2] [3]
    (by decide) (by decide)
  exact ⟨h.1.trans (by decide), h.2⟩

/-- C3 counterexample.  The claim says the local root is read at
`sp − offset·8`; the source reads at `sp + offset·8` (`gc.rs` lines 63–64):
with local offset 1, magic at `sp = 1000` and function id 0, the walker
feeds `mem 1008`, not the word at `1000 − 8 = 992`. -/
theorem c3_counterexample :
    walkFrame [([], [1])]
        (fun a => if a = 1000 then (0xBA5EBA11 : Int) else if a = 992 then 5 else 0) 1000
      ≠ .ok [(fun a => if a = 1000 then (0xBA5EBA11 : Int) else if a = 992 then 5 else 0)
              (1000 - 8 * 1)] := by
  decide

/-- C3 amended.  For every local-root offset of a found frame (any offset
below `2^60`, so that the `usize → isize` cast is value-preserving), the
walker reads the word at byte address `sp + offset·word_size` — the scaled
offset is added to the frame's stack pointer, not subtracted — and feeds
that word to the tracer. -/
theorem c3_local_root_address (registry : Registry) (mem : Mem) (sp : Int) (k : Nat)
    (esc loc : List Nat) (h1 : findSentinel mem sp = some k)
    (h2 : smLookup registry (usizeCast (mem (sp - 8 * k + 8))) = some (esc, loc))
    (hsmall : ∀ off ∈ loc, off < 2 ^ 60) :
    walkFrame registry mem sp = .ok (loc.map (fun off => mem (sp + (off * 8 : Nat)))) := by
  rw [walkFrame_found registry mem sp k esc loc h1 h2]
  refine congrArg Except.ok (List.map_congr_left fun off hoff => ?_)
  rw [isizeCast_small (off * 8) (by have := hsmall off hoff; omega)]

/-- Witness for C3 amended: local offset 2 is read at byte `1000 + 16`. -/
theorem c3_local_root_address_witness :
    walkFrame [([], [2])]
        (fun a => if a = 1000 then (0xBA5EBA11 : Int) else if a = 1016 then 77 else 0) 1000
      = .ok [77] := by
  have h := c3_local_root_address [([], [2])]
    (fun a => if a = 1000 then (0xBA5EBA11 : Int) else if a = 1016 then 77 else 0) 1000 0 [] [2]
    (by decide) (by decide) (by decide)
  exact h.trans (by decide)

/-- C8 counterexample.  Synthetic frame buffer `[garbage, garbage, MAGIC,
fn_id]` laid out downward from `sp = 0` (word `j` at byte `−8·j`), with
`garbage = 0, 42` and `fn_id = 7`: the sentinel is found at word offset 2,
but the id the source reads (`gc.rs` line 59) is the word at byte
`−16 + 8 = −8` — the garbage word 42, not the word 7 that follows the magic
in scan order. -/
theorem c8_counterexample :
    findSentinel
        (fun a => if a = -16 then (0xBA5EBA11 : Int)
          else if a = -8 then 42 else if a = -24 then 7 else 0) 0 = some 2 ∧
    sentinelId
        (fun a => if a = -16 then (0xBA5EBA11 : Int)
          else if a = -8 then 42 else if a = -24 then 7 else 0) 0 = some 42 ∧
    (42 : Int) ≠ 7 := by
  refine ⟨by decide, by decide, by decide⟩

/-- C8 amended.  The walker scans exactly the first 10 words at and below
the frame's stack pointer for the magic constant.  When the first hit is at
word offset 2 (bytes `sp − 16`), the id is read from the word at byte
`sp − 8` — one word above the magic in memory, the word scanned immediately
before it, not the following word of the downward layout.  When no word of
the 10-word window holds the magic (in particular when the sentinel sits at
word 10 or 11), the scan is a miss. -/
theorem c8_sentinel_scan (mem : Mem) (sp : Int) :
    (mem sp ≠ SENTINEL_MAGIC → mem (sp - 8) ≠ SENTINEL_MAGIC →
      mem (sp - 16) = SENTINEL_MAGIC →
      findSentinel mem sp = some 2 ∧ sentinelId mem sp = some (mem (sp - 8))) ∧
    ((∀ k, k < SCAN_WINDOW → mem (sp - 8 * k) ≠ SENTINEL_MAGIC) →
      findSentinel mem sp = none) := by
  constructor
  · intro h0 h1 h2
    have e0 : sp - 8 * ((0 : Nat) : Int) = sp := by push_cast; ring
    have e1 : sp - 8 * ((1 : Nat) : Int) = sp - 8 := by push_cast; ring
    have e2 : sp - 8 * ((2 : Nat) : Int) = sp - 16 := by push_cast; ring
    have hr : List.range SCAN_WINDOW = [0, 1, 2, 3, 4, 5, 6, 7, 8, 9] := by decide
    have hfind : findSentinel mem sp = some 2 := by
      unfold findSentinel
      rw [hr]
      rw [List.find?_cons_of_neg _ (by simp only [beq_iff_eq, e0]; exact h0)]
      rw [List.find?_cons_of_neg _ (by simp only [beq_iff_eq, e1]; exact h1)]
      rw [List.find?_cons_of_pos _ (by simp only [beq_iff_eq, e2]; exact h2)]
    refine ⟨hfind, ?_⟩
    unfold sentinelId
    rw [hfind]
    show some (mem (sp - 8 * ((2 : Nat) : Int) + 8)) = some (mem (sp - 8))
    rw [show sp - 8 * ((2 : Nat) : Int) + 8 = sp - 8 by push_cast; ring]
  · intro h
    exact List.find?_eq_none.mpr fun x hx => by
      simp only [beq_iff_eq]
      exact h x (List.mem_range.mp hx)

/-- Witness for C8 amended, at a buffer holding the magic only at byte
`−16` (hit at word offset 2, id read one word above the magic) and at a
buffer holding it only at word 11 (byte `−88`, a miss). -/
theorem c8_sentinel_scan_witness :
    findSentinel (fun a => if a = -16 then (0xBA5EBA11 : Int) else 0) 0 = some 2 ∧
    sentinelId (fun a => if a = -16 then (0xBA5EBA11 : Int) else 0) 0 = some 0 ∧
    findSentinel (fun a => if a = -88 then (0xBA5EBA11 : Int) else 0) 0 = none := by
  have h := c8_sentinel_scan (fun a => if a = -16 then (0xBA5EBA11 : Int) else 0) 0
  have h' := c8_sentinel_scan (fun a => if a = -88 then (0xBA5EBA11 : Int) else 0) 0
  have hmain := h.1 (by decide) (by decide) (by decide)
  exact ⟨hmain.1, hmain.2.trans (by decide), h'.2 (by decide)⟩

/-- C4.  Failing input for the trigger condition: with counter 0, threshold
0 and `do_gc 0`, the counter after adding does not exceed the threshold,
yet the walk runs — the source's condition is literally
`true || ALLOC_AMOUNT > GC_THRESHOLD` (`gc.rs` line 35), so the walker is
invoked on every call, not only past the threshold. -/
theorem c4_trigger_always_fires :
    (do_gc [] (fun _ => 0) [] 0 0).2.1 = true ∧ ¬ ((0 + 0 : Int) > GC_THRESHOLD) := by
  refine ⟨rfl, by decide⟩

/-- C10 counterexample.  Lifetime monotonicity fails at the `i64` wrap: at
counter `2^63 − 1` (a valid `i64` value), the call `do_gc 1` with a
non-negative amount overflows the source's `ALLOC_AMOUNT += amount`
(`gc.rs` line 31), which wraps in a release build, and the counter
decreases to `−2^63`. -/
theorem c10_counterexample :
    (do_gc [] (fun _ => 0) [] (2 ^ 63 - 1) 1).1 = -(2 ^ 63) ∧
    (0 : Int) ≤ 1 ∧ (-(2 ^ 63) : Int) < 2 ^ 63 - 1 := by
  refine ⟨by decide, by decide, by decide⟩

/-- C10 amended.  Every call to the hook changes the counter by exactly the
two's-complement `i64` wrap of `counter + amount` and makes no other
modification to it — in particular a triggered walk never resets it — so
with a non-negative amount and no `i64` overflow
(`counter + amount < 2^63`) the counter never decreases. -/
theorem c10_counter_only_accumulates (registry : Registry) (mem : Mem)
    (frames : List Int) (counter amount : Int) :
    (do_gc registry mem frames counter amount).1 = i64wrap (counter + amount) ∧
    (0 ≤ amount → -(2 ^ 63) ≤ counter → counter + amount < 2 ^ 63 →
      counter ≤ (do_gc registry mem frames counter amount).1) := by
  have h1 : (do_gc registry mem frames counter amount).1 = i64wrap (counter + amount) := rfl
  refine ⟨h1, fun ha hlo hhi => ?_⟩
  rw [h1]
  unfold i64wrap
  omega

/-- Witness for C10 amended at counter 3, amount 2 (no overflow). -/
theorem c10_counter_only_accumulates_witness :
    (do_gc [] (fun _ => 0) [] 3 2).1 = i64wrap (3 + 2) ∧
    (3 : Int) ≤ (do_gc [] (fun _ => 0) [] 3 2).1 := by
  have h := c10_counter_only_accumulates [] (fun _ => 0) [] 3 2
  exact ⟨h.1, h.2 (by decide) (by decide) (by decide)⟩

theorem rootOffsetsLoop_ok (dbg : Bool) (live : List Nat) (fs ws : Nat) (hws : ws ≠ 0)
    (slots : List (Nat × StackSlotData))
    (h : ∀ sl ∈ slots, sl.1 ∈ live → sl.2.kind ≠ .outgoingArg →
      sl.2.offset ≠ none ∧ (dbg = true → sl.2.size = ws)) :
    rootOffsetsLoop dbg live fs ws slots =
      .ok ((slots.filter (fun sl =>
          decide (sl.1 ∈ live) && decide (sl.2.kind ≠ .outgoingArg))).map
        (fun sl => usizeCast (i32wrap ((fs : Int) + sl.2.offset.getD 0)) / ws)) := by
  induction slots with
  | nil => rfl
  | cons sl rest ih =>
    have hrest := fun s hs => h s (List.mem_cons_of_mem sl hs)
    by_cases hskip : sl.1 ∉ live ∨ sl.2.kind = .outgoingArg
    · rw [show rootOffsetsLoop dbg live fs ws (sl :: rest)
          = rootOffsetsLoop dbg live fs ws rest from by
        simp only [rootOffsetsLoop]; rw [if_pos hskip]]
      rw [ih hrest]
      rcases hskip with hA | hB
      · simp [List.filter_cons, hA]
      · simp [List.filter_cons, hB]
    · push_neg at hskip
      obtain ⟨h1, h2⟩ := hskip
      obtain ⟨hoff, hsize⟩ := h sl (List.mem_cons_self sl rest) h1 h2
      obtain ⟨off, hoff'⟩ := Option.ne_none_iff_exists'.mp hoff
      have hassert : ¬(dbg = true ∧ sl.2.size ≠ ws) := by
        rintro ⟨hd, hs⟩
        exact hs (hsize hd)
      rw [show rootOffsetsLoop dbg live fs ws (sl :: rest)
          = (rootOffsetsLoop dbg live fs ws rest).map
              (fun v => usizeCast (i32wrap ((fs : Int) + off)) / ws :: v) from by
        simp only [rootOffsetsLoop]
        rw [if_neg (by push_neg; exact ⟨h1, h2⟩), if_neg hassert, hoff']
        dsimp only
        rw [if_neg hws]]
      rw [ih hrest]
      simp [List.filter_cons, h1, h2, Except.map, hoff']

/-- C7 counterexample.  Two handles resolving to the same ordinary stack
slot: the claim demands one offset per surviving handle (two), but the
source collects the slots into a set and emits one offset per distinct live
slot (`gc.rs` lines 126–156), so the resolver returns a single offset. -/
theorem c7_counterexample :
    (root_offsets_from_values true [1, 2] [(1, .stack 0), (2, .stack 0)]
        [(0, ⟨.explicitSlot, 8, some 0⟩)] 16 8).map List.length = .ok 1 ∧
    (survivingHandles [1, 2] [(1, .stack 0), (2, .stack 0)]
        [(0, ⟨.explicitSlot, 8, some 0⟩)]).length = 2 := by
  refine ⟨by decide, by decide⟩

/-- C7 amended.  When every live, non-outgoing slot has a recorded offset
(and, in debug builds, word size), the resolver returns one word offset —
computed as `usize(i32(frame_size + slot_byte_offset)) / word_size` — per
**distinct** stack slot, in slot-table order, that holds at least one
handle and is not an outgoing-call-argument slot; handles not located in a
stack slot and handles in outgoing-call-argument slots contribute no
offset.  The cardinality is the number of such slots, not the number of
surviving handles. -/
theorem c7_one_offset_per_live_slot (dbg : Bool) (args : List Nat)
    (locations : List (Nat × ValueLoc)) (slots : List (Nat × StackSlotData))
    (frame_size word_size : Nat) (hws : word_size ≠ 0)
    (h : ∀ sl ∈ slots, sl.1 ∈ liveRefsInStackSlot args locations →
      sl.2.kind ≠ .outgoingArg →
      sl.2.offset ≠ none ∧ (dbg = true → sl.2.size = word_size)) :
    root_offsets_from_values dbg args locations slots frame_size word_size =
      .ok ((slots.filter (fun sl =>
          decide (sl.1 ∈ liveRefsInStackSlot args locations) &&
          decide (sl.2.kind ≠ .outgoingArg))).map
        (fun sl => usizeCast (i32wrap ((frame_size : Int) + sl.2.offset.getD 0)) / word_size)) :=
  rootOffsetsLoop_ok dbg (liveRefsInStackSlot args locations) frame_size word_size hws slots h

/-- Witness for C7 amended: one handle in one ordinary slot at byte offset
8, frame size 16, word size 8, yields the single word offset 3. -/
theorem c7_one_offset_per_live_slot_witness :
    root_offsets_from_values true [1] [(1, .stack 0)] [(0, ⟨.explicitSlot, 8, some 8⟩)] 16 8
      = .ok [3] := by
  have h := c7_one_offset_per_live_slot true [1] [(1, .stack 0)]
    [(0, ⟨.explicitSlot, 8, some 8⟩)] 16 8 (by decide) (by decide)
  exact h.trans (by decide)

/-- C9 counterexample.  In a build without debug assertions, a live
root-bearing slot of size 4 ≠ word size 8 does **not** terminate execution:
the size check is a `debug_assert!` (`gc.rs` line 152), compiled out of
release builds, and the offset is returned as if the slot were valid. -/
theorem c9_counterexample :
    root_offsets_from_values false [1] [(1, .stack 0)] [(0, ⟨.explicitSlot, 4, some 0⟩)] 16 8
      = .ok [2] := by
  decide

/-- C9 amended.  An out-of-bounds registry lookup (id at or beyond the
current length) is fatal in every build (`Vec` indexing, `gc.rs` line 61);
a root-bearing slot whose size is not one word is fatal only in builds
that compile debug assertions in (`gc.rs` line 152). -/
theorem c9_fatal_invariants :
    (∀ (registry : Registry) (mem : Mem) (sp : Int) (k : Nat),
      findSentinel mem sp = some k →
      registry.length ≤ usizeCast (mem (sp - 8 * k + 8)) →
      walkFrame registry mem sp = .error .lookupOutOfBounds) ∧
    (∀ (v ss : Nat) (ssd : StackSlotData) (rest : List (Nat × StackSlotData)) (fs ws : Nat),
      ssd.kind ≠ .outgoingArg → ssd.size ≠ ws →
      root_offsets_from_values true [v] [(v, .stack ss)] ((ss, ssd) :: rest) fs ws
        = .error .sizeAssertFailed) := by
  constructor
  · exact fun registry mem sp k h1 h2 => walkFrame_lookup_fatal registry mem sp k h1 h2
  · intro v ss ssd rest fs ws hkind hsize
    unfold root_offsets_from_values
    have hlive : liveRefsInStackSlot [v] [(v, .stack ss)] = [ss] := by
      simp [liveRefsInStackSlot, List.lookup]
    rw [hlive]
    simp only [rootOffsetsLoop]
    rw [if_neg (by push_neg; exact ⟨List.mem_singleton.mpr rfl, hkind⟩)]
    rw [if_pos ⟨trivial, hsize⟩]

/-- Witness for C9 amended: an empty registry with a found sentinel and id
0 aborts the lookup; a live 4-byte slot aborts the debug-assertion build. -/
theorem c9_fatal_invariants_witness :
    walkFrame [] (fun a => if a = 0 then (0xBA5EBA11 : Int) else 0) 0
      = .error .lookupOutOfBounds ∧
    root_offsets_from_values true [1] [(1, .stack 0)] [(0, ⟨.explicitSlot, 4, some 0⟩)] 16 8
      = .error .sizeAssertFailed := by
  have h := c9_fatal_invariants
  exact ⟨h.1 [] (fun a => if a = 0 then (0xBA5EBA11 : Int) else 0) 0 0 (by decide) (by decide),
    h.2 1 0 ⟨.explicitSlot, 4, some 0⟩ [] 16 8 (by decide) (by decide)⟩

end LustGc
